import Mathlib

/-!
# Verification of the yt-summarize pipeline

A shallow embedding of the cache store (`yt_summarize/cache.py`), the
chunker and map-reduce summarizer (`yt_summarize/summarize/map_reduce.py`),
the transcript source chain (`yt_summarize/sources/youtube.py`), the retry
loops (`map_reduce.py`, `transcribe/openai_stt.py`) and the cost estimator
(`yt_summarize/costs.py`), together with theorems settling the spec's
claims about them.

Python strings are embedded as `List Char` (`PyStr`); the Python built-in
string operations the source uses (`str.split`, `str.strip`, `str.replace`,
`str.join`) are given faithful executable definitions below.  Token
counting (`tiktoken`) is an external collaborator and is kept abstract as a
function `tok : PyStr → Nat`.
-/

namespace YtSummarize

/-- Python strings, embedded as lists of characters. -/
abbrev PyStr := List Char

/-- Coerce a Lean string literal to the `PyStr` embedding. -/
def pys (s : String) : PyStr := s.data

/-! ## Python built-in string operations

Each definition mirrors the CPython semantics of the corresponding
`str` method for the (non-degenerate) argument shapes the source uses:
non-overlapping leftmost-first matching for `replace` and `split`,
whitespace trimming on both ends for `strip`. -/

/-- `Python s.startswith(pre)` on character lists. -/
def pyStartsWith (pre s : PyStr) : Bool :=
  match pre, s with
  | [], _ => true
  | _ :: _, [] => false
  | p :: ps, c :: cs => p = c && pyStartsWith ps cs

/-- Python `s.replace(old, new)`, on fuel: replace non-overlapping
occurrences of `old`, scanning left to right.  The recursion is structural
on `fuel`; one unit of fuel is spent per character position examined, so
`fuel = s.length` always suffices (a matched occurrence consumes
`old.length ≥ 1` characters).  (For `old = ""` Python would interleave
`new` everywhere; the source only calls `replace` with non-empty `old`,
and this embedding leaves the string unchanged in that degenerate case.) -/
def pyReplaceFuel (old new : PyStr) : Nat → PyStr → PyStr
  | _, [] => []
  | 0, s => s
  | fuel + 1, c :: cs =>
    if old ≠ [] ∧ pyStartsWith old (c :: cs) then
      new ++ pyReplaceFuel old new fuel ((c :: cs).drop old.length)
    else
      c :: pyReplaceFuel old new fuel cs

/-- Python `s.replace(old, new)`. -/
def pyReplace (old new s : PyStr) : PyStr :=
  pyReplaceFuel old new s.length s

/-- Python `s.split(sep)` for a non-empty separator, on fuel: split at
non-overlapping leftmost occurrences of `sep`; adjacent separators and
separators at either end produce empty pieces.  As in `pyReplaceFuel`,
`fuel = s.length` always suffices. -/
def pySplitFuel (sep : PyStr) : Nat → PyStr → List PyStr
  | _, [] => [[]]
  | 0, s => [s]
  | fuel + 1, c :: cs =>
    if sep ≠ [] ∧ pyStartsWith sep (c :: cs) then
      [] :: pySplitFuel sep fuel ((c :: cs).drop sep.length)
    else
      match pySplitFuel sep fuel cs with
      | [] => [[c]]
      | p :: ps => (c :: p) :: ps

/-- Python `s.split(sep)` for a non-empty separator. -/
def pySplit (sep s : PyStr) : List PyStr :=
  pySplitFuel sep s.length s

/-- Python `s.strip()`: remove leading and trailing whitespace. -/
def pyStrip (s : PyStr) : PyStr :=
  ((s.dropWhile Char.isWhitespace).reverse.dropWhile Char.isWhitespace).reverse

/-- Python `sep.join(pieces)`. -/
def pyJoin (sep : PyStr) (pieces : List PyStr) : PyStr :=
  List.intercalate sep pieces

/-! ## Cache store (`yt_summarize/cache.py`)

The JSON values a cache file can parse to are embedded as `JVal`;
`pyTruthy` is Python truthiness on such a value.  A stored cache file is
either absent, present with bytes that are not valid UTF-8
(`StoredContent.undecodable` — `read_text()` raises `UnicodeDecodeError`
there), present with decodable text that fails `json.loads`
(`StoredContent.invalid`), or present with content parsing to a value. -/

/-- A parsed JSON value (the possible results of `json.loads`).  Numbers
are embedded as integers; the distinction plays no role in any claim. -/
inductive JVal where
  | null : JVal
  | bool (b : Bool) : JVal
  | num (n : Int) : JVal
  | str (s : PyStr) : JVal
  | arr (xs : List JVal) : JVal
  | obj (fields : List (PyStr × JVal)) : JVal
deriving Repr

/-- Python truthiness of a parsed JSON value: `None`, `False`, `0`, `""`,
`[]` and `{}` are falsy, everything else truthy. -/
def pyTruthy : JVal → Bool
  | .null => false
  | .bool b => b
  | .num n => n != 0
  | .str s => !s.isEmpty
  | .arr xs => !xs.isEmpty
  | .obj fields => !fields.isEmpty

/-- The state of one cache file: present with bytes that do not decode
as UTF-8 (`undecodable`), present with decodable text that is not valid
JSON (`invalid`), or present with parsed content `v` (`val`); `none` at
the use sites stands for an absent file. -/
inductive StoredContent where
  | undecodable : StoredContent
  | invalid : StoredContent
  | val (v : JVal) : StoredContent

/-- A Python exception escaping to the caller of a cache read: the
`UnicodeDecodeError` that `cache_file.read_text()` raises on non-UTF-8
bytes (not caught — cache.py:63 catches only `json.JSONDecodeError`),
or the `TypeError` raised by keyword unpacking
(`CachedTranscript(**data)` / `CachedSummary(**data)`). -/
inductive PyError where
  | unicodeDecodeError : PyError
  | typeError : PyError
deriving Repr, DecidableEq

/-- `load_cached` (cache.py:57-65): return the parsed content if the file
exists and parses; an absent file or a `json.JSONDecodeError` becomes
`None`, but non-UTF-8 bytes make `read_text()` raise an uncaught
`UnicodeDecodeError`. -/
def load_cached : Option StoredContent → Except PyError (Option JVal)
  | none => .ok none
  | some .undecodable => .error .unicodeDecodeError
  | some .invalid => .ok none
  | some (.val v) => .ok (some v)

/-- `CachedTranscript` (cache.py:11-21).  The dataclass performs no
runtime type validation, so each field holds whatever JSON value the
stored object carried. -/
structure CachedTranscript where
  text : JVal
  video_id : JVal
  title : JVal
  channel : JVal
  lang : JVal
  method : JVal
  cached_at : JVal
deriving Repr

/-- `CachedSummary` (cache.py:24-31), same convention. -/
structure CachedSummary where
  markdown : JVal
  json_data : JVal
  model : JVal
  cached_at : JVal
deriving Repr

/-- First value bound to `key` in a parsed object. -/
def getField (fields : List (PyStr × JVal)) (key : PyStr) : JVal :=
  match fields.find? (fun f => f.1 = key) with
  | some f => f.2
  | none => .null

/-- The exact keyword set `CachedTranscript(**data)` accepts. -/
def transcriptFieldNames : List PyStr :=
  [pys "text", pys "video_id", pys "title", pys "channel", pys "lang",
   pys "method", pys "cached_at"]

/-- The exact keyword set `CachedSummary(**data)` accepts. -/
def summaryFieldNames : List PyStr :=
  [pys "markdown", pys "json_data", pys "model", pys "cached_at"]

/-- `CachedTranscript(**data)`: succeeds exactly when `data` is an object
whose key set is exactly the dataclass's field set; any other truthy value
raises `TypeError` (non-mapping argument, or missing/unexpected keyword). -/
def constructTranscript (v : JVal) : Except PyError CachedTranscript :=
  match v with
  | .obj fields =>
    if (fields.map Prod.fst).isPerm transcriptFieldNames then
      .ok { text := getField fields (pys "text"),
            video_id := getField fields (pys "video_id"),
            title := getField fields (pys "title"),
            channel := getField fields (pys "channel"),
            lang := getField fields (pys "lang"),
            method := getField fields (pys "method"),
            cached_at := getField fields (pys "cached_at") }
    else .error .typeError
  | _ => .error .typeError

/-- `CachedSummary(**data)`, same convention as `constructTranscript`. -/
def constructSummary (v : JVal) : Except PyError CachedSummary :=
  match v with
  | .obj fields =>
    if (fields.map Prod.fst).isPerm summaryFieldNames then
      .ok { markdown := getField fields (pys "markdown"),
            json_data := getField fields (pys "json_data"),
            model := getField fields (pys "model"),
            cached_at := getField fields (pys "cached_at") }
    else .error .typeError
  | _ => .error .typeError

/-- `load_transcript` (cache.py:74-79): `data = load_cached(...)`
(whose `UnicodeDecodeError` propagates); if `data` is truthy, construct
the dataclass from it (which may raise), else return `None`. -/
def load_transcript (st : Option StoredContent) :
    Except PyError (Option CachedTranscript) :=
  match load_cached st with
  | .error e => .error e
  | .ok none => .ok none
  | .ok (some v) =>
    if pyTruthy v then
      match constructTranscript v with
      | .ok t => .ok (some t)
      | .error e => .error e
    else .ok none

/-- The representation check of `load_summary` (cache.py:104-111):
`formats = output_format.split(",")`; return `None` if `"md"` is requested
but `summary.markdown` is falsy, or `"json"` is requested but
`summary.json_data` is falsy; otherwise return the record. -/
def summaryFormatCheck (summary : CachedSummary) (output_format : PyStr) :
    Option CachedSummary :=
  let formats := pySplit (pys ",") output_format
  if pys "md" ∈ formats ∧ ¬pyTruthy summary.markdown then none
  else if pys "json" ∈ formats ∧ ¬pyTruthy summary.json_data then none
  else some summary

/-- `load_summary` (cache.py:87-111): read and parse the stored file
(`load_cached`'s `UnicodeDecodeError` propagates), return `None` on a
missing/JSON-invalid/falsy record, construct the dataclass (which may
raise) and apply the representation check. -/
def load_summary (st : Option StoredContent) (output_format : PyStr) :
    Except PyError (Option CachedSummary) :=
  match load_cached st with
  | .error e => .error e
  | .ok none => .ok none
  | .ok (some v) =>
    if pyTruthy v then
      match constructSummary v with
      | .ok s => .ok (summaryFormatCheck s output_format)
      | .error e => .error e
    else .ok none

/-- `get_cache_key_youtube` (cache.py:34-36):
`f"{video_id}_{lang}_{method}"`. -/
def get_cache_key_youtube (video_id lang method : PyStr) : PyStr :=
  video_id ++ pys "_" ++ lang ++ pys "_" ++ method

/-! ## Chunker (`yt_summarize/summarize/map_reduce.py:158-192`)

`tiktoken`'s encoder is abstract: `tok s` stands for `len(enc.encode(s))`.
The loop is embedded in two layers: `chunkUnitsAux` mirrors the
accumulation loop but keeps each chunk as its list of sentence units;
`chunk_transcript` joins them with `" ".join` exactly as the source does. -/

/-- The sentence-splitting prelude of `chunk_transcript`
(map_reduce.py:170-172): normalize full-width terminators, split on
`". "`, keep non-blank pieces stripped with a `"."` appended. -/
def splitSentences (text : PyStr) : List PyStr :=
  ((pySplit (pys ". ")
      (pyReplace (pys "！") (pys "! ")
        (pyReplace (pys "？") (pys "? ")
          (pyReplace (pys "。") (pys ". ") text)))).filter
      (fun s => !(pyStrip s).isEmpty)).map
    (fun s => pyStrip s ++ pys ".")

/-- The accumulation loop of `chunk_transcript` (map_reduce.py:174-191),
keeping chunks as lists of sentence units.  `cur`/`curTok` mirror
`current_chunk`/`current_tokens`. -/
def chunkUnitsAux (tok : PyStr → Nat) (chunk_tokens : Nat)
    (cur : List PyStr) (curTok : Nat) : List PyStr → List (List PyStr)
  | [] => if cur.isEmpty then [] else [cur]
  | sentence :: rest =>
    let sentence_tokens := tok sentence
    if curTok + sentence_tokens > chunk_tokens ∧ ¬cur.isEmpty then
      cur :: chunkUnitsAux tok chunk_tokens [sentence] sentence_tokens rest
    else
      chunkUnitsAux tok chunk_tokens (cur ++ [sentence])
        (curTok + sentence_tokens) rest

/-- The chunks of `chunk_transcript`, each as its list of sentence units. -/
def chunkUnits (tok : PyStr → Nat) (text : PyStr) (chunk_tokens : Nat) :
    List (List PyStr) :=
  chunkUnitsAux tok chunk_tokens [] 0 (splitSentences text)

/-- `chunk_transcript` (map_reduce.py:158-192): the accumulated chunks,
each rendered with `" ".join`. -/
def chunk_transcript (tok : PyStr → Nat) (text : PyStr)
    (chunk_tokens : Nat) : List PyStr :=
  (chunkUnits tok text chunk_tokens).map (pyJoin (pys " "))

/-- Total token estimate of a list of sentence units. -/
def sumTok (tok : PyStr → Nat) (units : List PyStr) : Nat :=
  (units.map tok).sum

/-! ## Cost estimator (`yt_summarize/costs.py`) -/

/-- `WARN_TRANSCRIPT_TOKENS` (costs.py:17). -/
def WARN_TRANSCRIPT_TOKENS : Nat := 50000

/-- `WARN_ESTIMATED_COST` (costs.py:19). -/
def WARN_ESTIMATED_COST : ℚ := 1 / 2

/-- The `input`/`output` per-1M-token entries of `MODEL_COSTS`
(costs.py:5-14).  The speech-to-text entries hold only a `per_minute`
field and are omitted here: `estimate_summarization_cost` would fail on
them with a `KeyError`, and no claim concerns that path.  Python's float
constants are embedded as exact rationals. -/
def MODEL_COSTS_chat (model : PyStr) : Option (ℚ × ℚ) :=
  if model = pys "gpt-4o-mini" then some (15 / 100, 60 / 100)
  else if model = pys "gpt-4o" then some (250 / 100, 1000 / 100)
  else if model = pys "gpt-4-turbo" then some (1000 / 100, 3000 / 100)
  else none

/-- The result dict of `estimate_summarization_cost` (costs.py:58-64). -/
structure CostEstimate where
  num_chunks : Nat
  estimated_input_tokens : Nat
  estimated_output_tokens : Nat
  estimated_cost : ℚ
  should_warn : Bool
deriving Repr, DecidableEq

/-- `estimate_summarization_cost` (costs.py:22-64).  `// ` is `Nat`
division; `MODEL_COSTS.get(model, MODEL_COSTS["gpt-4o-mini"])` is the
`getD` below. -/
def estimate_summarization_cost (token_count : Nat)
    (chunk_tokens : Nat := 3000) (model : PyStr := pys "gpt-4o-mini") :
    CostEstimate :=
  let costs := (MODEL_COSTS_chat model).getD (15 / 100, 60 / 100)
  let num_chunks := max 1 (token_count / chunk_tokens)
  let map_input := num_chunks * (chunk_tokens + 500)
  let map_output := num_chunks * 200
  let reduce_input := num_chunks * 200 + 1000
  let reduce_output := 2000
  let total_input := map_input + reduce_input
  let total_output := map_output + reduce_output
  let input_cost := ((total_input : ℚ) / 1000000) * costs.1
  let output_cost := ((total_output : ℚ) / 1000000) * costs.2
  let total_cost := input_cost + output_cost
  { num_chunks := num_chunks,
    estimated_input_tokens := total_input,
    estimated_output_tokens := total_output,
    estimated_cost := total_cost,
    should_warn :=
      decide (token_count > WARN_TRANSCRIPT_TOKENS) ||
      decide (total_cost > WARN_ESTIMATED_COST) }

/-! ## Retry loops

`_call_with_retry` (map_reduce.py:92-146) and `_transcribe_with_retry`
(openai_stt.py:32-59) run the same `for attempt in range(max_retries)`
loop and differ only in the terminal message prefix; `retryLoop` embeds
that loop once, parameterized by the prefix.  The provider is abstract:
`provider k` is the outcome of attempt number `k` (a response, or the
`OpenAIError` the provider reported).  `time.sleep` is effect-free here;
the waits issued are collected in `sleeps`, in order. -/

/-- Outcome of a retry loop: the returned value or the terminal error
message, the number of attempts actually made, and the backoff waits
issued between attempts. -/
structure RetryOutcome (R : Type) where
  result : Except PyStr R
  attemptsMade : Nat
  sleeps : List Nat
deriving Repr

/-- Render `f"...failed after {n} attempts: {last_error}"`. -/
def retryFailMsg (prefixMsg : PyStr) (n : Nat) (lastErr : Option PyStr) :
    PyStr :=
  prefixMsg ++ pys (toString n) ++ pys " attempts: " ++
    (match lastErr with
     | some e => e
     | none => pys "None")

/-- The loop body shared by `_call_with_retry` and
`_transcribe_with_retry`: `remaining` counts the loop iterations left
(`max_retries - attempt`), `lastErr` mirrors `last_error`; after the last
failed attempt the terminal error is raised with no sleep. -/
def retryLoop {R : Type} (provider : Nat → Except PyStr R)
    (max_retries : Nat) (prefixMsg : PyStr) :
    Nat → Nat → Option PyStr → RetryOutcome R
  | 0, attempt, lastErr =>
    { result := .error (retryFailMsg prefixMsg max_retries lastErr),
      attemptsMade := attempt,
      sleeps := [] }
  | remaining + 1, attempt, _ =>
    match provider attempt with
    | .ok r => { result := .ok r, attemptsMade := attempt + 1, sleeps := [] }
    | .error e =>
      let rest := retryLoop provider max_retries prefixMsg remaining
        (attempt + 1) (some e)
      if attempt < max_retries - 1 then
        { rest with sleeps := 2 ^ (attempt + 1) :: rest.sleeps }
      else rest

/-- `_call_with_retry` (map_reduce.py:92-146) with its default
`max_retries=3`, abstracted over the provider's per-attempt outcomes. -/
def call_with_retry {R : Type} (provider : Nat → Except PyStr R)
    (max_retries : Nat := 3) : RetryOutcome R :=
  retryLoop provider max_retries (pys "API call failed after ")
    max_retries 0 none

/-- `_transcribe_with_retry` (openai_stt.py:32-59) with its default
`max_retries=3`, abstracted over the provider's per-attempt outcomes. -/
def transcribe_with_retry {R : Type} (provider : Nat → Except PyStr R)
    (max_retries : Nat := 3) : RetryOutcome R :=
  retryLoop provider max_retries (pys "Transcription failed after ")
    max_retries 0 none

/-! ## Caption-track selection (`yt_summarize/sources/youtube.py:289-363`)

The transcript-index collaborator is abstract: a caption listing is a
list of `Track`s, and fetching/translating a track are identity-level
operations (only which track is chosen, whether it was translated, and
the reported language matter to the claims). -/

/-- One entry of the caption-track listing
(`list_tracks` in the spec; a `Transcript` of the collaborator API).
`translation_languages` carries the codes of `t.translation_languages`. -/
structure Track where
  language_code : PyStr
  is_generated : Bool
  is_translatable : Bool
  translation_languages : List PyStr
deriving Repr, DecidableEq

/-- The transcript chosen by `fetch_transcript_api`: an original track,
or a track translated into a requested language. -/
inductive ChosenTranscript where
  | original (t : Track) : ChosenTranscript
  | translated (t : Track) (lang : PyStr) : ChosenTranscript
deriving Repr, DecidableEq

/-- The track/language selection logic of `fetch_transcript_api`
(youtube.py:311-358): exact language match first (non-auto mode), then a
translatable track supporting the requested language, then — whenever
`transcript` is still `None`, auto mode or not — the first
manually-authored track, then the first auto-generated track.  `none`
embeds raising `TranscriptNotAvailable`; the pair carries `found_lang`. -/
def selectTranscript (tracks : List Track) (lang : PyStr) :
    Option (ChosenTranscript × PyStr) :=
  match (if lang ≠ pys "auto" then
      tracks.find? (fun t => t.language_code = lang) else none) with
  | some t => some (.original t, lang)
  | none =>
    match (if lang ≠ pys "auto" then
        tracks.find?
          (fun t => t.is_translatable && lang ∈ t.translation_languages)
      else none) with
    | some t => some (.translated t lang, lang)
    | none =>
      match tracks.find? (fun t => !t.is_generated) with
      | some t => some (.original t, t.language_code)
      | none =>
        match tracks.find? (fun t => t.is_generated) with
        | some t => some (.original t, t.language_code)
        | none => none

/-! ## Transcript source chain (`yt_summarize/sources/youtube.py:366-440`)

The chain's three strategies call external collaborators; their outcomes
are abstracted into a `ChainEnv`: `apiOutcome` is what
`fetch_transcript_api` would do (succeed with text and language, or raise
`TranscriptNotAvailable`); `subsOutcome` is what `fetch_subtitles_ytdlp`
would do after its `_check_ytdlp()` succeeds; `audioOutcome` likewise for
`download_audio` after its `_check_ytdlp()`.  `ytdlpInstalled` decides
whether `_check_ytdlp()` raises `YtDlpNotFound`. -/

/-- Abstracted collaborator outcomes for one acquisition request. -/
structure ChainEnv where
  ytdlpInstalled : Bool
  apiOutcome : Except Unit (PyStr × PyStr)
  subsOutcome : Except Unit (PyStr × PyStr)
  audioOutcome : Except Unit PyStr

/-- Errors `fetch_youtube_transcript` can terminate with (each carries
its message). -/
inductive ChainError where
  | ytDlpNotFound (msg : PyStr) : ChainError
  | transcriptNotAvailable (msg : PyStr) : ChainError
deriving Repr, DecidableEq

/-- A successful chain result: the transcript (or audio handoff) tagged
with the method that produced it, as in `TranscriptResult.method`. -/
inductive ChainResult where
  | captions (text lang : PyStr) : ChainResult
  | subs (text lang : PyStr) : ChainResult
  | sttAudio (audio : PyStr) : ChainResult
deriving Repr, DecidableEq

/-- The strategies, in chain order, for the attempt trace. -/
inductive ChainStep where
  | captionsStep | subsStep | audioStep
deriving Repr, DecidableEq

/-- The remediation message of `YtDlpNotFound` (youtube.py:63-65). -/
def ytdlpMissingMsg : PyStr :=
  pys "yt-dlp not found. Install with: brew install yt-dlp (or pip install yt-dlp)"

/-- `fetch_youtube_transcript` (youtube.py:366-440), for an already
extracted `video_id`: try the transcript API, then yt-dlp subtitles
(catching `TranscriptNotAvailable` *and* `YtDlpNotFound`), then — unless
audio fallback is disallowed — audio download, whose `_check_ytdlp()`
re-raises `YtDlpNotFound` uncaught.  Returns the outcome together with
the list of strategies attempted. -/
def fetch_youtube_transcript (env : ChainEnv) (video_id : PyStr)
    (allow_audio_fallback : Bool) :
    Except ChainError ChainResult × List ChainStep :=
  match env.apiOutcome with
  | .ok (text, lang) => (.ok (.captions text lang), [.captionsStep])
  | .error _ =>
    -- step 2: fetch_subtitles_ytdlp starts with _check_ytdlp()
    let subsResult : Except ChainError ChainResult :=
      if ¬env.ytdlpInstalled then .error (.ytDlpNotFound ytdlpMissingMsg)
      else
        match env.subsOutcome with
        | .ok (text, lang) => .ok (.subs text lang)
        | .error _ =>
          .error (.transcriptNotAvailable
            (pys "No subtitles found for video " ++ video_id))
    match subsResult with
    | .ok r => (.ok r, [.captionsStep, .subsStep])
    | .error _ =>
      -- both exception classes are caught; fall through to audio
      if ¬allow_audio_fallback then
        (.error (.transcriptNotAvailable
          (pys "No captions/subtitles available for " ++ video_id ++
            pys " and audio fallback disabled")),
         [.captionsStep, .subsStep])
      else
        -- step 3: download_audio starts with _check_ytdlp(), uncaught here
        if ¬env.ytdlpInstalled then
          (.error (.ytDlpNotFound ytdlpMissingMsg),
           [.captionsStep, .subsStep, .audioStep])
        else
          match env.audioOutcome with
          | .ok audio =>
            (.ok (.sttAudio audio), [.captionsStep, .subsStep, .audioStep])
          | .error _ =>
            (.error (.transcriptNotAvailable
              (pys "Audio download failed")),
             [.captionsStep, .subsStep, .audioStep])

/-! ## Map-reduce call structure (`map_reduce.py:294-350`)

For the claims about which collaborator calls `summarize_transcript`
issues, the language model is abstracted to the per-chunk extraction
outcome `mapResult` (structured output mode, where every map response
parses), and the calls issued are recorded in order. -/

/-- A `ChunkExtract` as produced by the map phase. -/
structure ChunkExtract where
  key_points : List PyStr
  quotes : List PyStr
  topics : List PyStr
  terms : List (PyStr × PyStr)
deriving Repr, DecidableEq

/-- One language-model call issued by `summarize_transcript`. -/
inductive LLMCall where
  | mapCall (chunk : PyStr) : LLMCall
  | reduceMd (extracts : List ChunkExtract) : LLMCall
  | reduceJson (extracts : List ChunkExtract) : LLMCall
deriving Repr, DecidableEq

/-- The sequence of language-model calls `summarize_transcript`
(map_reduce.py:294-350) issues: one map call per chunk in order, then —
per `formats = options.output_format.split(",")` — one markdown reduce
call if `"md"` is requested and one structured reduce call if `"json"`
is requested, each over the full ordered extract list. -/
def summarizeCalls (tok : PyStr → Nat) (mapResult : PyStr → ChunkExtract)
    (text : PyStr) (chunk_tokens : Nat) (output_format : PyStr) :
    List LLMCall :=
  let chunks := chunk_transcript tok text chunk_tokens
  let chunk_summaries := chunks.map mapResult
  let formats := pySplit (pys ",") output_format
  chunks.map LLMCall.mapCall ++
    (if pys "md" ∈ formats then [LLMCall.reduceMd chunk_summaries] else []) ++
    (if pys "json" ∈ formats then [LLMCall.reduceJson chunk_summaries] else [])

/-! ## Helper lemmas: Python string operations -/

/-- A single-character `replace` pattern that does not occur leaves the
string unchanged, for any fuel. -/
theorem pyReplaceFuel_of_not_mem (a : Char) (new : PyStr) :
    ∀ (s : PyStr) (fuel : Nat), a ∉ s → pyReplaceFuel [a] new fuel s = s := by
  intro s
  induction s with
  | nil => intro fuel _; cases fuel <;> rfl
  | cons c cs ih =>
    intro fuel h
    simp only [List.mem_cons, not_or] at h
    cases fuel with
    | zero => rfl
    | succ fuel =>
      rw [pyReplaceFuel, if_neg]
      · rw [ih fuel h.2]
      · simp only [ne_eq, List.cons_ne_self, not_false_eq_true, true_and,
          pyStartsWith, Bool.and_eq_true, decide_eq_true_eq]
        intro hsw
        exact h.1 hsw.1

/-- `pyReplace` with an absent single-character pattern is the identity. -/
theorem pyReplace_of_not_mem (a : Char) (new : PyStr) (s : PyStr)
    (h : a ∉ s) : pyReplace [a] new s = s :=
  pyReplaceFuel_of_not_mem a new s s.length h

/-- Every character of every piece of `pySplitFuel` is a character of the
input (given enough fuel). -/
theorem pySplitFuel_mem {sep : PyStr} {P : Char → Prop} :
    ∀ (fuel : Nat) (s : PyStr), s.length ≤ fuel → (∀ c ∈ s, P c) →
      ∀ p ∈ pySplitFuel sep fuel s, ∀ c ∈ p, P c := by
  intro fuel
  induction fuel with
  | zero =>
    intro s hlen hall p hp c hc
    have hs : s = [] := List.length_eq_zero.mp (Nat.le_zero.mp hlen)
    subst hs
    simp only [pySplitFuel, List.mem_singleton] at hp
    subst hp
    simp at hc
  | succ fuel ih =>
    intro s hlen hall p hp c hc
    match s with
    | [] =>
      simp only [pySplitFuel, List.mem_singleton] at hp
      subst hp; simp at hc
    | d :: ds =>
      rw [pySplitFuel] at hp
      by_cases hcond : sep ≠ [] ∧ pyStartsWith sep (d :: ds)
      · rw [if_pos hcond] at hp
        rcases List.mem_cons.mp hp with rfl | hp
        · simp at hc
        · have hsep : 1 ≤ sep.length := List.length_pos.mpr hcond.1
          have hlen' : ((d :: ds).drop sep.length).length ≤ fuel := by
            simp only [List.length_drop, List.length_cons]
            simp only [List.length_cons] at hlen
            omega
          exact ih _ hlen'
            (fun x hx => hall x (List.mem_of_mem_drop hx)) p hp c hc
      · rw [if_neg hcond] at hp
        have hlen' : ds.length ≤ fuel := by
          simp only [List.length_cons] at hlen; omega
        have hall' : ∀ x ∈ ds, P x := fun x hx => hall x (List.mem_cons_of_mem _ hx)
        match e : pySplitFuel sep fuel ds with
        | [] =>
          rw [e] at hp
          simp only [List.mem_singleton] at hp
          subst hp
          simp only [List.mem_singleton] at hc
          subst hc
          exact hall c (List.mem_cons_self c ds)
        | q :: qs =>
          rw [e] at hp
          rcases List.mem_cons.mp hp with rfl | hp
          · rcases List.mem_cons.mp hc with rfl | hc
            · exact hall c (List.mem_cons_self c ds)
            · exact ih _ hlen' hall' q (e ▸ List.mem_cons_self q qs) c hc
          · exact ih _ hlen' hall' p (e ▸ List.mem_cons_of_mem _ hp) c hc

/-- Every character of every piece of `pySplit` is a character of the
input. -/
theorem pySplit_mem {sep : PyStr} {P : Char → Prop} (s : PyStr)
    (hall : ∀ c ∈ s, P c) : ∀ p ∈ pySplit sep s, ∀ c ∈ p, P c :=
  pySplitFuel_mem s.length s le_rfl hall

/-- Stripping an all-whitespace string gives the empty string. -/
theorem pyStrip_of_whitespace (s : PyStr)
    (h : ∀ c ∈ s, c.isWhitespace) : pyStrip s = [] := by
  unfold pyStrip
  have h1 : s.dropWhile Char.isWhitespace = [] :=
    List.dropWhile_eq_nil_iff.mpr h
  rw [h1]
  simp

/-- An empty or whitespace-only transcript has no sentence units. -/
theorem splitSentences_of_whitespace (text : PyStr)
    (h : ∀ c ∈ text, c.isWhitespace) : splitSentences text = [] := by
  unfold splitSentences
  have hdot : ('。' : Char) ∉ text := fun hm => by
    have := h _ hm; simp [Char.isWhitespace] at this
  have hq : ('？' : Char) ∉ text := fun hm => by
    have := h _ hm; simp [Char.isWhitespace] at this
  have hx : ('！' : Char) ∉ text := fun hm => by
    have := h _ hm; simp [Char.isWhitespace] at this
  rw [show pys "。" = ['。'] from rfl, show pys "？" = ['？'] from rfl,
    show pys "！" = ['！'] from rfl]
  rw [pyReplace_of_not_mem _ _ _ hdot, pyReplace_of_not_mem _ _ _ hq,
    pyReplace_of_not_mem _ _ _ hx]
  have hpieces : ∀ p ∈ pySplit (pys ". ") text, ∀ c ∈ p, c.isWhitespace :=
    pySplit_mem text h
  have : (pySplit (pys ". ") text).filter
      (fun s => !(pyStrip s).isEmpty) = [] := by
    rw [List.filter_eq_nil_iff]
    intro p hp
    rw [pyStrip_of_whitespace p (hpieces p hp)]
    simp
  rw [this]
  rfl

/-! ## Helper lemmas: the chunker loop -/

/-- The chunk-budget discipline one chunk can satisfy: its token estimate
is within budget, or it is a single sentence unit that alone exceeds the
budget. -/
def goodChunk (tok : PyStr → Nat) (b : Nat) (c : List PyStr) : Prop :=
  sumTok tok c ≤ b ∨ ∃ s, c = [s] ∧ b < tok s

/-- Between consecutive chunks: the earlier chunk could not have absorbed
the first unit of the later one. -/
def chunkBoundary (tok : PyStr → Nat) (b : Nat) (c d : List PyStr) : Prop :=
  ∀ s ∈ d.head?, b < sumTok tok c + tok s

theorem sumTok_append (tok : PyStr → Nat) (xs ys : List PyStr) :
    sumTok tok (xs ++ ys) = sumTok tok xs + sumTok tok ys := by
  simp [sumTok]

/-- The chunker's chunks concatenate back to the sentence-unit list: no
unit is split, dropped, duplicated or reordered. -/
theorem chunkUnitsAux_flatten (tok : PyStr → Nat) (b : Nat) :
    ∀ (ss cur : List PyStr) (t : Nat),
      (chunkUnitsAux tok b cur t ss).flatten = cur ++ ss := by
  intro ss
  induction ss with
  | nil =>
    intro cur t
    rw [chunkUnitsAux]
    by_cases h : cur.isEmpty
    · rw [if_pos h, List.isEmpty_iff.mp h]; rfl
    · rw [if_neg h]; simp
  | cons s rest ih =>
    intro cur t
    rw [chunkUnitsAux]
    by_cases h : t + tok s > b ∧ ¬cur.isEmpty
    · rw [if_pos h]
      simp only [List.flatten_cons, ih]
      rfl
    · rw [if_neg h, ih]
      simp

/-- Every chunk the loop emits is non-empty. -/
theorem chunkUnitsAux_ne_nil (tok : PyStr → Nat) (b : Nat) :
    ∀ (ss cur : List PyStr) (t : Nat),
      ∀ c ∈ chunkUnitsAux tok b cur t ss, c ≠ [] := by
  intro ss
  induction ss with
  | nil =>
    intro cur t c hc
    rw [chunkUnitsAux] at hc
    by_cases h : cur.isEmpty
    · rw [if_pos h] at hc; simp at hc
    · rw [if_neg h] at hc
      simp only [List.mem_singleton] at hc
      subst hc
      exact fun e => h (List.isEmpty_iff.mpr e)
  | cons s rest ih =>
    intro cur t c hc
    rw [chunkUnitsAux] at hc
    by_cases h : t + tok s > b ∧ ¬cur.isEmpty
    · rw [if_pos h] at hc
      rcases List.mem_cons.mp hc with rfl | hc
      · exact fun e => h.2 (List.isEmpty_iff.mpr e)
      · exact ih _ _ c hc
    · rw [if_neg h] at hc
      exact ih _ _ c hc

/-- Loop invariant: provided the running count matches the accumulated
chunk and the accumulated chunk satisfies the budget discipline, every
emitted chunk satisfies it. -/
theorem chunkUnitsAux_good (tok : PyStr → Nat) (b : Nat) :
    ∀ (ss cur : List PyStr) (t : Nat), t = sumTok tok cur →
      cur = [] ∨ goodChunk tok b cur →
      ∀ c ∈ chunkUnitsAux tok b cur t ss, goodChunk tok b c := by
  intro ss
  have single : ∀ s : PyStr, goodChunk tok b [s] := by
    intro s
    by_cases hs : tok s ≤ b
    · exact Or.inl (by simpa [sumTok] using hs)
    · exact Or.inr ⟨s, rfl, Nat.lt_of_not_le hs⟩
  induction ss with
  | nil =>
    intro cur t ht hcur c hc
    rw [chunkUnitsAux] at hc
    by_cases h : cur.isEmpty
    · rw [if_pos h] at hc; simp at hc
    · rw [if_neg h] at hc
      simp only [List.mem_singleton] at hc
      subst hc
      rcases hcur with rfl | hgood
      · simp at h
      · exact hgood
  | cons s rest ih =>
    intro cur t ht hcur c hc
    rw [chunkUnitsAux] at hc
    by_cases h : t + tok s > b ∧ ¬cur.isEmpty
    · rw [if_pos h] at hc
      rcases List.mem_cons.mp hc with rfl | hc
      · rcases hcur with rfl | hgood
        · simp at h
        · exact hgood
      · exact ih [s] (tok s) (by simp [sumTok]) (Or.inr (single s)) c hc
    · rw [if_neg h] at hc
      refine ih (cur ++ [s]) (t + tok s)
        (by rw [ht, sumTok_append]; simp [sumTok]) ?_ c hc
      by_cases hemp : cur.isEmpty
      · rw [List.isEmpty_iff.mp hemp]
        exact Or.inr (single s)
      · have hle : t + tok s ≤ b := by
          rcases not_and_or.mp h with h1 | h2
          · exact Nat.le_of_not_lt h1
          · exact absurd hemp h2
        refine Or.inr (Or.inl ?_)
        rw [sumTok_append, ← ht]
        simpa [sumTok] using hle

/-- When the accumulated chunk is non-empty, the loop's first emitted
chunk extends it on the right. -/
theorem chunkUnitsAux_head (tok : PyStr → Nat) (b : Nat) :
    ∀ (ss cur : List PyStr) (t : Nat), cur ≠ [] →
      ∃ ext rest, chunkUnitsAux tok b cur t ss = (cur ++ ext) :: rest := by
  intro ss
  induction ss with
  | nil =>
    intro cur t hcur
    rw [chunkUnitsAux, if_neg (fun h => hcur (List.isEmpty_iff.mp h))]
    exact ⟨[], [], by simp⟩
  | cons s rest ih =>
    intro cur t hcur
    rw [chunkUnitsAux]
    by_cases h : t + tok s > b ∧ ¬cur.isEmpty
    · rw [if_pos h]
      exact ⟨[], chunkUnitsAux tok b [s] (tok s) rest, by simp⟩
    · rw [if_neg h]
      obtain ⟨ext, rest', he⟩ := ih (cur ++ [s]) (t + tok s) (by simp)
      exact ⟨[s] ++ ext, rest', by rw [he, List.append_assoc]⟩

/-- Loop invariant: a chunk is closed only because appending the next
unit would overflow the budget — consecutive emitted chunks satisfy
`chunkBoundary`. -/
theorem chunkUnitsAux_chain (tok : PyStr → Nat) (b : Nat) :
    ∀ (ss cur : List PyStr) (t : Nat), t = sumTok tok cur →
      List.Chain' (chunkBoundary tok b) (chunkUnitsAux tok b cur t ss) := by
  intro ss
  induction ss with
  | nil =>
    intro cur t _
    rw [chunkUnitsAux]
    by_cases h : cur.isEmpty
    · rw [if_pos h]; exact List.chain'_nil
    · rw [if_neg h]; exact List.chain'_singleton cur
  | cons s rest ih =>
    intro cur t ht
    rw [chunkUnitsAux]
    by_cases h : t + tok s > b ∧ ¬cur.isEmpty
    · rw [if_pos h]
      refine List.chain'_cons'.mpr ⟨?_, ih [s] (tok s) (by simp [sumTok])⟩
      intro y hy
      obtain ⟨ext, rest', he⟩ :=
        chunkUnitsAux_head tok b rest [s] (tok s) (by simp)
      rw [he] at hy
      simp only [List.head?_cons, Option.mem_def, Option.some.injEq] at hy
      subst hy
      intro u hu
      simp only [List.cons_append, List.head?_cons, Option.mem_def,
        Option.some.injEq] at hu
      subst hu
      rw [← ht]
      exact h.1
    · rw [if_neg h]
      exact ih (cur ++ [s]) (t + tok s)
        (by rw [ht, sumTok_append]; simp [sumTok])

/-- When everything fits the budget, the loop emits a single chunk
holding all remaining units. -/
theorem chunkUnitsAux_all_fit (tok : PyStr → Nat) (b : Nat) :
    ∀ (ss cur : List PyStr) (t : Nat), cur ≠ [] →
      t + sumTok tok ss ≤ b →
      chunkUnitsAux tok b cur t ss = [cur ++ ss] := by
  intro ss
  induction ss with
  | nil =>
    intro cur t hcur _
    rw [chunkUnitsAux, if_neg (fun h => hcur (List.isEmpty_iff.mp h))]
    simp
  | cons s rest ih =>
    intro cur t hcur hle
    rw [chunkUnitsAux, if_neg, ih (cur ++ [s]) (t + tok s) (by simp) ?le]
    · simp
    case le =>
      simp only [sumTok, List.map_cons, List.sum_cons] at hle ⊢
      omega
    · intro hcl
      have : t + tok s ≤ b := by
        simp only [sumTok, List.map_cons, List.sum_cons] at hle
        omega
      omega

/-- The chunker's chunks concatenate back to the sentence-unit list. -/
theorem chunkUnits_flatten (tok : PyStr → Nat) (b : Nat) (text : PyStr) :
    (chunkUnits tok text b).flatten = splitSentences text := by
  unfold chunkUnits
  simpa using chunkUnitsAux_flatten tok b (splitSentences text) [] 0

/-- A transcript whose sentence units all fit in one budget is kept as a
single chunk holding every unit. -/
theorem chunkUnits_single (tok : PyStr → Nat) (b : Nat) (text : PyStr)
    (hne : splitSentences text ≠ [])
    (hsum : sumTok tok (splitSentences text) ≤ b) :
    chunkUnits tok text b = [splitSentences text] := by
  obtain ⟨s, rest, e⟩ : ∃ s rest, splitSentences text = s :: rest := by
    cases h : splitSentences text with
    | nil => exact absurd h hne
    | cons a l => exact ⟨a, l, rfl⟩
  unfold chunkUnits
  rw [e, chunkUnitsAux, if_neg (by simp)]
  rw [e] at hsum
  simp only [sumTok, List.map_cons, List.sum_cons] at hsum
  have := chunkUnitsAux_all_fit tok b rest [s] (tok s) (by simp)
    (by simpa [sumTok] using hsum)
  simpa using this

/-- When every sentence unit fits the budget, every produced chunk's
token estimate is within the budget. -/
theorem chunkUnits_sum_le (tok : PyStr → Nat) (b : Nat) (text : PyStr)
    (hall : ∀ s ∈ splitSentences text, tok s ≤ b) :
    ∀ c ∈ chunkUnits tok text b, sumTok tok c ≤ b := by
  intro c hc
  rcases chunkUnitsAux_good tok b (splitSentences text) [] 0 (by simp [sumTok])
      (Or.inl rfl) c hc with hle | ⟨s, rfl, hgt⟩
  · exact hle
  · have hs : s ∈ (chunkUnits tok text b).flatten :=
      List.mem_flatten.mpr ⟨[s], hc, List.mem_singleton.mpr rfl⟩
    rw [chunkUnits_flatten tok b text] at hs
    exact absurd (hall s hs) (Nat.not_le_of_lt hgt)

/-- The total token estimate is at most budget times the number of
chunks, when every sentence unit fits the budget. -/
theorem sumTok_le_length_mul (tok : PyStr → Nat) (b : Nat) (text : PyStr)
    (hall : ∀ s ∈ splitSentences text, tok s ≤ b) :
    sumTok tok (splitSentences text) ≤ (chunkUnits tok text b).length * b := by
  have key : sumTok tok (splitSentences text)
      = ((chunkUnits tok text b).map (sumTok tok)).sum := by
    conv_lhs => rw [← chunkUnits_flatten tok b text]
    simp only [sumTok, List.map_flatten, List.sum_flatten, List.map_map]
    rfl
  rw [key]
  calc ((chunkUnits tok text b).map (sumTok tok)).sum
      ≤ ((chunkUnits tok text b).map (sumTok tok)).length • b :=
        List.sum_le_card_nsmul _ b (by
          intro x hx
          obtain ⟨c, hc, rfl⟩ := List.mem_map.mp hx
          exact chunkUnits_sum_le tok b text hall c hc)
    _ = (chunkUnits tok text b).length * b := by simp [smul_eq_mul]

/-! ## Supporting definitions for cache claims -/

/-- `asdict(summary)` as written by `save_summary`: the stored JSON
object of a `CachedSummary`. -/
def encodeSummary (s : CachedSummary) : JVal :=
  .obj [(pys "markdown", s.markdown), (pys "json_data", s.json_data),
        (pys "model", s.model), (pys "cached_at", s.cached_at)]

/-- Whether a parsed value has exactly the shape `CachedTranscript(**v)`
accepts. -/
def isTranscriptShaped : JVal → Bool
  | .obj fields => (fields.map Prod.fst).isPerm transcriptFieldNames
  | _ => false

/-- Whether a parsed value has exactly the shape `CachedSummary(**v)`
accepts. -/
def isSummaryShaped : JVal → Bool
  | .obj fields => (fields.map Prod.fst).isPerm summaryFieldNames
  | _ => false

/-! ## The claims -/

/-- **C1.** For every stored summary record and every requested
representation set, the summary lookup returns the record exactly when
every requested representation is present and non-empty (Python-truthy)
in it, and absent otherwise — in particular a markdown-only record with a
`"json"` request (or vice versa) yields absent even though a record is
stored under the key.  Stated over `load_summary` applied to the stored
serialization of an arbitrary record. -/
theorem c1_summary_lookup_representation_gate (s : CachedSummary)
    (output_format : PyStr) :
    load_summary (some (.val (encodeSummary s))) output_format =
      .ok (if (pys "md" ∈ pySplit (pys ",") output_format →
                pyTruthy s.markdown)
            ∧ (pys "json" ∈ pySplit (pys ",") output_format →
                pyTruthy s.json_data)
          then some s else none) := by
  show Except.ok (summaryFormatCheck s output_format) = _
  congr 1
  unfold summaryFormatCheck
  dsimp only
  split_ifs <;> tauto

/-- **C2, counterexample.**  Two stored contents on which a cache read
raises to its caller instead of reporting a miss: valid JSON of the wrong
shape (an object without the transcript fields) raises a `TypeError`
from keyword unpacking, and non-UTF-8 file bytes raise an uncaught
`UnicodeDecodeError` from `read_text()`. -/
theorem c2_counterexample_wrong_shape_raises :
    load_transcript (some (.val (.obj [(pys "foo", .num 1)])))
      = .error .typeError ∧
    load_transcript (some .undecodable) = .error .unicodeDecodeError :=
  ⟨rfl, rfl⟩

/-- **C2, amended.**  Reading a cached transcript or summary treats a
missing file, decodable-but-invalid JSON, and falsy-parsing content as a
miss and never raises there; but file bytes that are not valid UTF-8
raise an uncaught `UnicodeDecodeError`, content parsing to a *truthy*
JSON value that does not have exactly the record's field set raises a
`TypeError` to the caller, and a truthy well-shaped object is returned
as a record. -/
theorem c2_amended_cache_read_errors (output_format : PyStr) :
    load_transcript none = .ok none ∧
    load_transcript (some .invalid) = .ok none ∧
    load_summary none output_format = .ok none ∧
    load_summary (some .invalid) output_format = .ok none ∧
    load_transcript (some .undecodable) = .error .unicodeDecodeError ∧
    load_summary (some .undecodable) output_format
      = .error .unicodeDecodeError ∧
    (∀ v, pyTruthy v = false →
      load_transcript (some (.val v)) = .ok none ∧
      load_summary (some (.val v)) output_format = .ok none) ∧
    (∀ v, pyTruthy v = true →
      ((∃ e, load_transcript (some (.val v)) = .error e) ↔
        isTranscriptShaped v = false) ∧
      ((∃ e, load_summary (some (.val v)) output_format = .error e) ↔
        isSummaryShaped v = false)) := by
  refine ⟨rfl, rfl, rfl, rfl, rfl, rfl, ?_, ?_⟩
  · intro v hv
    constructor
    · show (if pyTruthy v then _ else Except.ok none) = Except.ok none
      rw [hv]; rfl
    · show (if pyTruthy v then _ else Except.ok none) = Except.ok none
      rw [hv]; rfl
  · intro v hv
    constructor
    · show (∃ e, (if pyTruthy v then _ else _) = _) ↔ _
      rw [hv]
      simp only [if_true]
      match v with
      | .obj fields =>
        simp only [isTranscriptShaped, constructTranscript]
        by_cases hp : (fields.map Prod.fst).isPerm transcriptFieldNames
        · rw [if_pos hp]
          simp [hp]
        · rw [if_neg hp]
          simp only [Bool.not_eq_true] at hp
          exact iff_of_true ⟨.typeError, rfl⟩ hp
      | .null => exact absurd hv (by decide)
      | .bool b => exact iff_of_true ⟨.typeError, rfl⟩ rfl
      | .num n => exact iff_of_true ⟨.typeError, rfl⟩ rfl
      | .str s => exact iff_of_true ⟨.typeError, rfl⟩ rfl
      | .arr xs => exact iff_of_true ⟨.typeError, rfl⟩ rfl
    · show (∃ e, (if pyTruthy v then _ else _) = _) ↔ _
      rw [hv]
      simp only [if_true]
      match v with
      | .obj fields =>
        simp only [isSummaryShaped, constructSummary]
        by_cases hp : (fields.map Prod.fst).isPerm summaryFieldNames
        · rw [if_pos hp]
          simp [hp]
        · rw [if_neg hp]
          simp only [Bool.not_eq_true] at hp
          exact iff_of_true ⟨.typeError, rfl⟩ hp
      | .null => exact absurd hv (by decide)
      | .bool b => exact iff_of_true ⟨.typeError, rfl⟩ rfl
      | .num n => exact iff_of_true ⟨.typeError, rfl⟩ rfl
      | .str s => exact iff_of_true ⟨.typeError, rfl⟩ rfl
      | .arr xs => exact iff_of_true ⟨.typeError, rfl⟩ rfl

/-- **C2, witness** for the amended theorem, at concrete stored
contents: non-UTF-8 bytes raise, a truthy array raises, a falsy object
is a miss. -/
theorem c2_amended_witness :
    load_transcript (some .undecodable) = .error .unicodeDecodeError ∧
    (∃ e, load_transcript (some (.val (.arr [.num 1]))) = .error e) ∧
    load_transcript (some (.val (.obj []))) = .ok none := by
  refine ⟨?_, ?_, ?_⟩
  · exact (c2_amended_cache_read_errors (pys "md")).2.2.2.2.1
  · exact ((c2_amended_cache_read_errors (pys "md")).2.2.2.2.2.2.2
      (.arr [.num 1]) (by decide)).1.mpr (by decide)
  · exact (((c2_amended_cache_read_errors (pys "md")).2.2.2.2.2.2.1
      (.obj []) (by decide))).1

/-- **C8, counterexample.**  The composite key
`f"{video_id}_{lang}_{method}"` is not injective on arbitrary triples:
two distinct triples can collide when a component contains the
underscore separator. -/
theorem c8_counterexample_underscore_collision :
    get_cache_key_youtube (pys "a_b") (pys "c") (pys "d") =
      get_cache_key_youtube (pys "a") (pys "b_c") (pys "d") ∧
    (pys "a_b", pys "c", pys "d") ≠ (pys "a", pys "b_c", pys "d") := by
  decide

/-- **C8, amended.**  The key is a pure function of the triple, and
changing exactly one component (identity, language, or method) while the
others stay fixed always changes the key; only simultaneous changes of
several components can collide. -/
theorem c8_amended_single_component_injective (v v' l l' m m' : PyStr) :
    (v ≠ v' → get_cache_key_youtube v l m ≠ get_cache_key_youtube v' l m) ∧
    (l ≠ l' → get_cache_key_youtube v l m ≠ get_cache_key_youtube v l' m) ∧
    (m ≠ m' → get_cache_key_youtube v l m ≠ get_cache_key_youtube v l m') := by
  unfold get_cache_key_youtube
  refine ⟨fun hne h => hne ?_, fun hne h => hne ?_, fun hne h => hne ?_⟩
  · have h1 := List.append_cancel_right h
    have h2 := List.append_cancel_right h1
    have h3 := List.append_cancel_right h2
    exact List.append_cancel_right h3
  · have h1 := List.append_cancel_right h
    have h2 := List.append_cancel_right h1
    exact List.append_cancel_left h2
  · exact List.append_cancel_left h

/-- **C8, witness** for the amended theorem at concrete components. -/
theorem c8_amended_witness :
    get_cache_key_youtube (pys "vidA") (pys "en") (pys "captions") ≠
      get_cache_key_youtube (pys "vidB") (pys "en") (pys "captions") :=
  (c8_amended_single_component_injective (pys "vidA") (pys "vidB")
    (pys "en") (pys "en") (pys "captions") (pys "captions")).1 (by decide)

/-- **C6, counterexample.**  For the short text of the repository's own
test (`test_short_text_single_chunk`), a single chunk is produced but its
content is *not* the unmodified input: the sentence normalization appends
a period (`"This is a short text.."`), even though the text's token
estimate (under a concrete encoder, here character count) is far below
the budget. -/
theorem c6_counterexample_chunk_content_modified :
    chunk_transcript (fun s => s.length) (pys "This is a short text.") 100
      = [pys "This is a short text.."] ∧
    pys "This is a short text.." ≠ pys "This is a short text." ∧
    sumTok (fun s => s.length)
      (splitSentences (pys "This is a short text.")) ≤ 100 := by
  decide

/-- **C6, amended.**  For text whose sentence units together fit the
budget, the chunker produces exactly one chunk holding the space-join of
the *normalized* sentence units (each stripped, with a terminal period
appended) — not necessarily the unmodified input text; and when the units
each fit the budget but their total exceeds it, more than one chunk is
produced. -/
theorem c6_amended_chunk_counts (tok : PyStr → Nat) (text : PyStr)
    (chunk_tokens : Nat) :
    (splitSentences text ≠ [] →
      sumTok tok (splitSentences text) ≤ chunk_tokens →
      chunk_transcript tok text chunk_tokens
        = [pyJoin (pys " ") (splitSentences text)]) ∧
    ((∀ s ∈ splitSentences text, tok s ≤ chunk_tokens) →
      chunk_tokens < sumTok tok (splitSentences text) →
      1 < (chunk_transcript tok text chunk_tokens).length) := by
  constructor
  · intro hne hsum
    unfold chunk_transcript
    rw [chunkUnits_single tok chunk_tokens text hne hsum]
    rfl
  · intro hall hgt
    unfold chunk_transcript
    rw [List.length_map]
    by_contra hle
    push_neg at hle
    interval_cases h : (chunkUnits tok text chunk_tokens).length
    · have : splitSentences text = [] := by
        rw [← chunkUnits_flatten tok chunk_tokens text,
          List.length_eq_zero.mp h]
        rfl
      rw [this] at hgt
      simp [sumTok] at hgt
    · obtain ⟨c, hc⟩ := List.length_eq_one.mp h
      have hflat : splitSentences text = c := by
        rw [← chunkUnits_flatten tok chunk_tokens text, hc]
        simp
      have := chunkUnits_sum_le tok chunk_tokens text hall c
        (by rw [hc]; exact List.mem_singleton.mpr rfl)
      rw [← hflat] at this
      omega

/-- **C6, witness** for the amended theorem: a two-sentence text fitting
the budget yields one normalized chunk; two 9-token sentences against a
budget of 10 yield two chunks. -/
theorem c6_amended_witness :
    chunk_transcript (fun s => s.length) (pys "Hi. Bye.") 100
      = [pyJoin (pys " ") (splitSentences (pys "Hi. Bye."))] ∧
    1 < (chunk_transcript (fun s => s.length)
      (pys "aaaaaaaa. bbbbbbbb") 10).length :=
  ⟨(c6_amended_chunk_counts (fun s => s.length) (pys "Hi. Bye.") 100).1
      (by decide) (by decide),
   (c6_amended_chunk_counts (fun s => s.length)
      (pys "aaaaaaaa. bbbbbbbb") 10).2 (by decide) (by decide)⟩

/-- **C7.** For every text and positive chunk budget: every chunk either
has its running token estimate (the sum of its sentence units' counts)
within the budget or is a single sentence unit that alone exceeds it; no
sentence unit is split across chunks (the chunks' unit lists concatenate
back to the sentence-unit list); and a new chunk is started only when
adding the next unit to the non-empty current chunk would exceed the
budget (consecutive chunks satisfy `chunkBoundary`).  `chunk_transcript`
renders exactly these unit lists. -/
theorem c7_chunk_budget_discipline (tok : PyStr → Nat) (text : PyStr)
    (chunk_tokens : Nat) (hpos : 0 < chunk_tokens) :
    (∀ c ∈ chunkUnits tok text chunk_tokens,
      sumTok tok c ≤ chunk_tokens ∨ ∃ s, c = [s] ∧ chunk_tokens < tok s) ∧
    (chunkUnits tok text chunk_tokens).flatten = splitSentences text ∧
    List.Chain' (chunkBoundary tok chunk_tokens)
      (chunkUnits tok text chunk_tokens) ∧
    chunk_transcript tok text chunk_tokens
      = (chunkUnits tok text chunk_tokens).map (pyJoin (pys " ")) := by
  refine ⟨?_, chunkUnits_flatten tok chunk_tokens text, ?_, rfl⟩
  · intro c hc
    exact chunkUnitsAux_good tok chunk_tokens (splitSentences text) [] 0
      (by simp [sumTok]) (Or.inl rfl) c hc
  · exact chunkUnitsAux_chain tok chunk_tokens (splitSentences text) [] 0
      (by simp [sumTok])

/-- **C7, witness** at a concrete text, budget and encoder. -/
theorem c7_witness :
    (0 : Nat) < 10 ∧
    (chunkUnits (fun s => s.length) (pys "aaaa. bb. cc") 10).flatten
      = splitSentences (pys "aaaa. bb. cc") :=
  ⟨by decide,
   (c7_chunk_budget_discipline (fun s => s.length)
      (pys "aaaa. bb. cc") 10 (by decide)).2.1⟩

/-- **C4, counterexample.**  With the same token-counting method on both
sides (here a concrete encoder: character count), the cost estimator's
predicted chunk count `max(1, token_count // chunk_tokens)` differs from
the number of chunks the chunker actually produces: two 9-token sentences
against a budget of 10 chunk into 2 chunks while the estimator, fed the
text's total count 18, predicts 1. -/
theorem c4_counterexample_estimate_mismatch :
    (estimate_summarization_cost ((pys "aaaaaaaa. bbbbbbbb").length) 10
      (pys "gpt-4o-mini")).num_chunks = 1 ∧
    (pys "aaaaaaaa. bbbbbbbb").length
      = sumTok (fun s => s.length)
          (splitSentences (pys "aaaaaaaa. bbbbbbbb")) ∧
    (chunk_transcript (fun s => s.length)
      (pys "aaaaaaaa. bbbbbbbb") 10).length = 2 := by
  refine ⟨rfl, by decide, by decide⟩

/-- **C4, amended.**  The estimator and chunker share the token-counting
method, but the estimator computes `max(1, token_count // chunk_tokens)`,
which is only a *lower bound* on — not always equal to — the chunker's
actual chunk count, whenever the total count is the sum of the sentence
units' counts and each unit fits the budget. -/
theorem c4_amended_estimate_lower_bound (tok : PyStr → Nat) (text : PyStr)
    (chunk_tokens : Nat) (model : PyStr) (token_count : Nat)
    (hpos : 0 < chunk_tokens)
    (hne : splitSentences text ≠ [])
    (hall : ∀ s ∈ splitSentences text, tok s ≤ chunk_tokens)
    (htc : token_count = sumTok tok (splitSentences text)) :
    (estimate_summarization_cost token_count chunk_tokens model).num_chunks
      ≤ (chunk_transcript tok text chunk_tokens).length := by
  show max 1 (token_count / chunk_tokens) ≤ _
  unfold chunk_transcript
  rw [List.length_map]
  have hk : 1 ≤ (chunkUnits tok text chunk_tokens).length := by
    rcases Nat.eq_zero_or_pos (chunkUnits tok text chunk_tokens).length
      with h | h
    · exfalso
      apply hne
      rw [← chunkUnits_flatten tok chunk_tokens text,
        List.length_eq_zero.mp h]
      rfl
    · exact h
  have hmul : token_count
      ≤ (chunkUnits tok text chunk_tokens).length * chunk_tokens := by
    rw [htc]
    exact sumTok_le_length_mul tok chunk_tokens text hall
  have hdiv : token_count / chunk_tokens
      ≤ (chunkUnits tok text chunk_tokens).length := by
    calc token_count / chunk_tokens
        ≤ (chunkUnits tok text chunk_tokens).length * chunk_tokens
            / chunk_tokens := Nat.div_le_div_right hmul
      _ = (chunkUnits tok text chunk_tokens).length :=
          Nat.mul_div_cancel _ hpos
  exact max_le hk hdiv

/-- **C4, witness** for the amended theorem at a concrete text. -/
theorem c4_amended_witness :
    (estimate_summarization_cost
      (sumTok (fun s => s.length) (splitSentences (pys "Hi. Bye."))) 100
      (pys "gpt-4o-mini")).num_chunks
      ≤ (chunk_transcript (fun s => s.length) (pys "Hi. Bye.") 100).length :=
  c4_amended_estimate_lower_bound (fun s => s.length) (pys "Hi. Bye.")
    100 (pys "gpt-4o-mini") _ (by decide) (by decide) (by decide) rfl

/-- **C10.** For empty or whitespace-only input text the chunker returns
no chunks, and summarization performs zero map-phase extraction calls but
still issues one reduce-phase merge call per requested representation
over the empty extract list — it neither rejects the input up front nor
short-circuits. -/
theorem c10_empty_input_calls (tok : PyStr → Nat)
    (mapResult : PyStr → ChunkExtract) (text : PyStr) (chunk_tokens : Nat)
    (output_format : PyStr) (hws : ∀ c ∈ text, c.isWhitespace) :
    chunk_transcript tok text chunk_tokens = [] ∧
    summarizeCalls tok mapResult text chunk_tokens output_format =
      (if pys "md" ∈ pySplit (pys ",") output_format
        then [LLMCall.reduceMd []] else []) ++
      (if pys "json" ∈ pySplit (pys ",") output_format
        then [LLMCall.reduceJson []] else []) := by
  have hs := splitSentences_of_whitespace text hws
  have hchunks : chunk_transcript tok text chunk_tokens = [] := by
    unfold chunk_transcript chunkUnits
    rw [hs]
    rfl
  refine ⟨hchunks, ?_⟩
  simp only [summarizeCalls, hchunks, List.map_nil, List.nil_append]

/-- **C10, witness** at a concrete whitespace-only text requesting both
representations. -/
theorem c10_witness :
    chunk_transcript (fun s => s.length) (pys "  ") 3000 = [] ∧
    summarizeCalls (fun s => s.length) (fun _ => ⟨[], [], [], []⟩)
      (pys "  ") 3000 (pys "md,json")
      = [LLMCall.reduceMd [], LLMCall.reduceJson []] := by
  have h := c10_empty_input_calls (fun s => s.length)
    (fun _ => ⟨[], [], [], []⟩) (pys "  ") 3000 (pys "md,json") (by decide)
  refine ⟨h.1, ?_⟩
  rw [h.2]
  decide

/-- The chat-retry terminal message renders as
`"API call failed after 3 attempts: {last_error}"`. -/
theorem retryFailMsg_api (e : PyStr) :
    retryFailMsg (pys "API call failed after ") 3 (some e)
      = pys "API call failed after 3 attempts: " ++ e := by
  show (pys "API call failed after " ++ pys (toString 3)
    ++ pys " attempts: ") ++ e = _
  have h : pys "API call failed after " ++ pys (toString 3)
      ++ pys " attempts: " = pys "API call failed after 3 attempts: " := by
    decide
  rw [h]

/-- The transcription-retry terminal message renders as
`"Transcription failed after 3 attempts: {last_error}"`. -/
theorem retryFailMsg_stt (e : PyStr) :
    retryFailMsg (pys "Transcription failed after ") 3 (some e)
      = pys "Transcription failed after 3 attempts: " ++ e := by
  show (pys "Transcription failed after " ++ pys (toString 3)
    ++ pys " attempts: ") ++ e = _
  have h : pys "Transcription failed after " ++ pys (toString 3)
      ++ pys " attempts: "
      = pys "Transcription failed after 3 attempts: " := by
    decide
  rw [h]

/-- Shared computation: the retry loop when every attempt fails. -/
theorem retryLoop_all_fail {R : Type} (provider : Nat → Except PyStr R)
    (prefixMsg : PyStr) (e0 e1 e2 : PyStr)
    (h0 : provider 0 = .error e0) (h1 : provider 1 = .error e1)
    (h2 : provider 2 = .error e2) :
    retryLoop provider 3 prefixMsg 3 0 none =
      ⟨.error (retryFailMsg prefixMsg 3 (some e2)), 3, [2, 4]⟩ := by
  rw [show retryLoop provider 3 prefixMsg 3 0 none
    = retryLoop provider 3 prefixMsg (2 + 1) 0 none from rfl]
  rw [retryLoop, h0]
  simp only [show (0 : Nat) < 3 - 1 from by decide, if_pos]
  rw [retryLoop, h1]
  simp only [show (1 : Nat) < 3 - 1 from by decide, if_pos]
  rw [retryLoop, h2]
  simp only [show ¬((2 : Nat) < 3 - 1) from by decide, if_neg,
    not_false_iff]
  rw [retryLoop]
  rfl

/-- Shared computation: the retry loop when attempt `j < 3` is the first
success. -/
theorem retryLoop_first_success {R : Type} (provider : Nat → Except PyStr R)
    (prefixMsg : PyStr) (j : Nat) (r : R) (hj : j < 3)
    (hok : provider j = .ok r)
    (herr : ∀ k, k < j → ∃ e, provider k = .error e) :
    retryLoop provider 3 prefixMsg 3 0 none =
      ⟨.ok r, j + 1, (List.range j).map (fun k => 2 ^ (k + 1))⟩ := by
  interval_cases j
  · rw [show retryLoop provider 3 prefixMsg 3 0 none
      = retryLoop provider 3 prefixMsg (2 + 1) 0 none from rfl]
    rw [retryLoop, hok]
    rfl
  · obtain ⟨a0, ha0⟩ := herr 0 (by decide)
    rw [show retryLoop provider 3 prefixMsg 3 0 none
      = retryLoop provider 3 prefixMsg (2 + 1) 0 none from rfl]
    rw [retryLoop, ha0]
    simp only [show (0 : Nat) < 3 - 1 from by decide, if_pos]
    rw [retryLoop, hok]
    rfl
  · obtain ⟨a0, ha0⟩ := herr 0 (by decide)
    obtain ⟨a1, ha1⟩ := herr 1 (by decide)
    rw [show retryLoop provider 3 prefixMsg 3 0 none
      = retryLoop provider 3 prefixMsg (2 + 1) 0 none from rfl]
    rw [retryLoop, ha0]
    simp only [show (0 : Nat) < 3 - 1 from by decide, if_pos]
    rw [retryLoop, ha1]
    simp only [show (1 : Nat) < 3 - 1 from by decide, if_pos]
    rw [retryLoop, hok]
    rfl

/-- **C9.** For every language-model (`_call_with_retry`) or
speech-to-text (`_transcribe_with_retry`) call: when the provider errors
on every attempt, exactly 3 attempts are made with exponentially growing
waits between consecutive attempts — 2s then 4s, the `2^(attempt+1)`
schedule (an 8s wait would only precede a fourth attempt, which is never
made) — and the loop ends with a terminal error carrying the attempt
count and the last provider error; a success on attempt `j` returns that
response after `j+1` attempts with no further attempts and only the
waits already incurred. -/
theorem c9_retry_policy {R : Type} (provider : Nat → Except PyStr R) :
    (∀ e0 e1 e2, provider 0 = .error e0 → provider 1 = .error e1 →
      provider 2 = .error e2 →
      call_with_retry provider =
        ⟨.error (pys "API call failed after 3 attempts: " ++ e2), 3, [2, 4]⟩ ∧
      transcribe_with_retry provider =
        ⟨.error (pys "Transcription failed after 3 attempts: " ++ e2), 3,
          [2, 4]⟩) ∧
    (∀ j r, j < 3 → provider j = .ok r →
      (∀ k, k < j → ∃ e, provider k = .error e) →
      call_with_retry provider =
        ⟨.ok r, j + 1, (List.range j).map (fun k => 2 ^ (k + 1))⟩ ∧
      transcribe_with_retry provider =
        ⟨.ok r, j + 1, (List.range j).map (fun k => 2 ^ (k + 1))⟩) := by
  constructor
  · intro e0 e1 e2 h0 h1 h2
    constructor
    · show retryLoop provider 3 (pys "API call failed after ") 3 0 none = _
      rw [retryLoop_all_fail provider _ e0 e1 e2 h0 h1 h2,
        retryFailMsg_api]
    · show retryLoop provider 3 (pys "Transcription failed after ")
        3 0 none = _
      rw [retryLoop_all_fail provider _ e0 e1 e2 h0 h1 h2,
        retryFailMsg_stt]
  · intro j r hj hok herr
    exact ⟨retryLoop_first_success provider _ j r hj hok herr,
      retryLoop_first_success provider _ j r hj hok herr⟩

/-- **C9, witness**: a provider failing all three attempts, and one
succeeding on the second attempt, at concrete values. -/
theorem c9_witness :
    call_with_retry (R := PyStr) (fun _ => .error (pys "boom")) =
      ⟨.error (pys "API call failed after 3 attempts: boom"), 3, [2, 4]⟩ ∧
    call_with_retry (R := PyStr)
      (fun k => if k = 1 then .ok (pys "yay") else .error (pys "e")) =
      ⟨.ok (pys "yay"), 2, [2]⟩ := by
  constructor
  · have h := ((c9_retry_policy (R := PyStr)
      (fun _ => .error (pys "boom"))).1 (pys "boom") (pys "boom")
      (pys "boom") rfl rfl rfl).1
    rw [h]
    have hmsg : pys "API call failed after 3 attempts: " ++ pys "boom"
        = pys "API call failed after 3 attempts: boom" := by decide
    rw [hmsg]
  · have h := ((c9_retry_policy (R := PyStr)
      (fun k => if k = 1 then .ok (pys "yay") else .error (pys "e"))).2
      1 (pys "yay") (by decide) rfl
      (fun k hk => ⟨pys "e", by interval_cases k; rfl⟩)).1
    rw [h]
    rfl

/-- **C3, counterexample.**  When yt-dlp is missing and the caption API
reports unavailability: with audio fallback disallowed the chain
terminates with the *generic* not-available error, not the tool-missing
error; and with fallback allowed it silently advances past the
subtitle-download step to the audio strategy. -/
theorem c3_counterexample_tool_missing_not_immediate :
    (fetch_youtube_transcript
        ⟨false, .error (), .ok (pys "t", pys "en"), .ok (pys "a")⟩
        (pys "v") false).1
      = .error (.transcriptNotAvailable
          (pys "No captions/subtitles available for v and audio fallback disabled")) ∧
    ChainStep.audioStep ∈ (fetch_youtube_transcript
        ⟨false, .error (), .ok (pys "t", pys "en"), .ok (pys "a")⟩
        (pys "v") true).2 := by
  exact ⟨rfl, by decide⟩

/-- **C3, amended.**  When yt-dlp is not installed and the caption-API
step fails with unavailability, the subtitle step's tool-missing error is
*caught* and the chain advances to the audio step: with audio fallback
allowed, the audio step's own tool check re-raises it, so the chain's
final error is the distinct tool-missing error with remediation guidance;
with audio fallback disallowed, the chain terminates with the generic
not-available failure instead. -/
theorem c3_amended_tool_missing_via_audio_step (env : ChainEnv)
    (video_id : PyStr) (hins : env.ytdlpInstalled = false)
    (happ : env.apiOutcome = .error ()) :
    fetch_youtube_transcript env video_id true =
      (.error (.ytDlpNotFound ytdlpMissingMsg),
        [.captionsStep, .subsStep, .audioStep]) ∧
    fetch_youtube_transcript env video_id false =
      (.error (.transcriptNotAvailable
          (pys "No captions/subtitles available for " ++ video_id ++
            pys " and audio fallback disabled")),
        [.captionsStep, .subsStep]) := by
  unfold fetch_youtube_transcript
  rw [happ, hins]
  simp

/-- **C3, witness** for the amended theorem at a concrete environment. -/
theorem c3_amended_witness :
    fetch_youtube_transcript
        ⟨false, .error (), .error (), .error ()⟩ (pys "vid123") true =
      (.error (.ytDlpNotFound ytdlpMissingMsg),
        [.captionsStep, .subsStep, .audioStep]) :=
  (c3_amended_tool_missing_via_audio_step
    ⟨false, .error (), .error (), .error ()⟩ (pys "vid123") rfl rfl).1

/-- **C5, counterexample.**  With a specifically requested language
(`"sv"`) and a listing holding only a manually-authored English track
(not translatable), the caption-lookup step does not fail: it returns the
English track — a transcript in some other language. -/
theorem c5_counterexample_wrong_language_returned :
    selectTranscript [⟨pys "en", false, false, []⟩] (pys "sv")
      = some (.original ⟨pys "en", false, false, []⟩, pys "en") ∧
    pys "en" ≠ pys "sv" := by
  decide

/-- **C5, amended.**  For a specifically requested language: an
exact-language track is used when one exists; otherwise a translatable
track supporting the language is translated; otherwise the step does
*not* fail — the auto-mode preference applies even to a specific request,
returning the first manually-authored track (else the first
auto-generated track) in whatever language it carries.  The step fails
(raising `TranscriptNotAvailable`, advancing the chain) exactly when the
track listing is empty. -/
theorem c5_amended_caption_track_selection (tracks : List Track)
    (lang : PyStr) (hla : lang ≠ pys "auto") :
    (∀ t, tracks.find? (fun t => t.language_code = lang) = some t →
      selectTranscript tracks lang = some (.original t, lang)) ∧
    (tracks.find? (fun t => t.language_code = lang) = none →
      ∀ t, tracks.find?
          (fun t => t.is_translatable && lang ∈ t.translation_languages)
        = some t →
      selectTranscript tracks lang = some (.translated t lang, lang)) ∧
    (tracks.find? (fun t => t.language_code = lang) = none →
      tracks.find?
          (fun t => t.is_translatable && lang ∈ t.translation_languages)
        = none →
      tracks ≠ [] →
      ∃ t, t ∈ tracks ∧
        selectTranscript tracks lang = some (.original t, t.language_code)) ∧
    (selectTranscript tracks lang = none ↔ tracks = []) := by
  refine ⟨?_, ?_, ?_, ?_⟩
  · intro t ht
    unfold selectTranscript
    rw [if_pos hla, ht]
  · intro hex t ht
    unfold selectTranscript
    rw [if_pos hla, hex, if_pos hla, ht]
  · intro hex htr hne
    unfold selectTranscript
    rw [if_pos hla, hex, if_pos hla, htr]
    cases hm : tracks.find? (fun t => !t.is_generated) with
    | some t => exact ⟨t, List.mem_of_find?_eq_some hm, rfl⟩
    | none =>
      match tracks, hne with
      | t0 :: rest, _ =>
        have hgen : t0.is_generated = true := by
          have := List.find?_eq_none.mp hm t0 (List.mem_cons_self t0 rest)
          simpa using this
        have hfind : (t0 :: rest).find? (fun t => t.is_generated) = some t0 :=
          List.find?_cons_of_pos rest hgen
        rw [hfind]
        exact ⟨t0, List.mem_cons_self t0 rest, rfl⟩
  · constructor
    · intro hnone
      match tracks, hnone with
      | [], _ => rfl
      | t0 :: rest, hnone =>
        exfalso
        unfold selectTranscript at hnone
        rw [if_pos hla] at hnone
        cases h1 : (t0 :: rest).find? (fun t => t.language_code = lang) with
        | some t => rw [h1] at hnone; exact Option.noConfusion hnone
        | none =>
          rw [h1, if_pos hla] at hnone
          cases h2 : (t0 :: rest).find?
              (fun t => t.is_translatable && lang ∈ t.translation_languages)
            with
          | some t => rw [h2] at hnone; exact Option.noConfusion hnone
          | none =>
            rw [h2] at hnone
            cases h3 : (t0 :: rest).find? (fun t => !t.is_generated) with
            | some t => rw [h3] at hnone; exact Option.noConfusion hnone
            | none =>
              rw [h3] at hnone
              cases h4 : (t0 :: rest).find? (fun t => t.is_generated) with
              | some t => rw [h4] at hnone; exact Option.noConfusion hnone
              | none =>
                have hng := List.find?_eq_none.mp h3 t0
                  (List.mem_cons_self t0 rest)
                have hg := List.find?_eq_none.mp h4 t0
                  (List.mem_cons_self t0 rest)
                simp at hng hg
                simp [hng] at hg
    · intro h
      subst h
      simp [selectTranscript, hla]

/-- **C5, witness** for the amended theorem: an exact-language match is
used, and an empty listing fails. -/
theorem c5_amended_witness :
    selectTranscript [⟨pys "sv", false, false, []⟩] (pys "sv")
      = some (.original ⟨pys "sv", false, false, []⟩, pys "sv") ∧
    (selectTranscript [] (pys "sv") = none ↔ ([] : List Track) = []) :=
  ⟨(c5_amended_caption_track_selection [⟨pys "sv", false, false, []⟩]
      (pys "sv") (by decide)).1 ⟨pys "sv", false, false, []⟩ (by decide),
   (c5_amended_caption_track_selection [] (pys "sv") (by decide)).2.2.2⟩

end YtSummarize
